import Mathlib

/-!
Shallow embedding of the Ethereum transaction indexer/reconciler of the
token-wallets backend (`Web3Event` and its helpers).  Pure data is embedded as
Lean structures, the mutable transaction store as an explicit list threaded
through the functions, and the external collaborators (chain client receipts,
web3 log decoding, the user/wallet store) as function parameters, mirroring the
collaborator contracts the class consumes.
-/

namespace TokenWallets

/-- Transaction status constants (`TRANSACTION_STATUS_PENDING` / `_CONFIRMED` /
`_FAILED` imported from the transaction entity). -/
inductive TxStatus
  | pending
  | confirmed
  | failed
deriving DecidableEq, Repr

/-- Transaction type constants (`ETHEREUM_TRANSFER`, `ERC20_TRANSFER`). -/
inductive TxType
  | ethereumTransfer
  | erc20Transfer
deriving DecidableEq, Repr

/-- Modelled from the spec: the persisted `Transaction` entity
(`entities/transaction`, whose file is outside the provided sources; its fields
are those read and written by `Web3Event` and listed in the spec's data model):
`hash` (unique key), `status`, `type`, `from`, `to`, `amount` (value in whole
chain-native units, embedded as a rational), `contractAddress` (present only
for token transfers), `blockNumber`, `timestamp`, `details`.  The JS fields
`type` and `contractAddress` can be `undefined`, embedded as `Option`. -/
structure Transaction where
  transactionHash : String
  status : TxStatus
  type : Option TxType
  txFrom : String
  txTo : String
  amount : Rat
  contractAddress : Option String
  blockNumber : Int
  timestamp : Int
  details : String
deriving DecidableEq, Repr

/-- Modelled from the spec: `Transaction.createTransaction` (entity file outside
the provided sources) builds a fresh record carrying only the transaction hash
and the diagnostic details; per the spec a newly created record is Pending and
carries no classification yet. -/
def Transaction.createTransaction (transactionHash : String) (details : String) : Transaction :=
  { transactionHash := transactionHash
    status := TxStatus.pending
    type := none
    txFrom := ""
    txTo := ""
    amount := 0
    contractAddress := none
    blockNumber := 0
    timestamp := 0
    details := details }

/-- A raw transaction as delivered inside a block by the chain client
(`web3/types` `Transaction`).  `value` is in wei. -/
structure EthTransaction where
  hash : String
  txFrom : String
  txTo : String
  value : Nat
  input : String
  gas : Nat
  gasPrice : Nat
deriving DecidableEq, Repr

/-- The type `ExtEthTransaction`: a raw transaction extended with the token contract
address recovered while parsing erc20 call data. -/
structure ExtEthTransaction where
  hash : String
  txFrom : String
  txTo : String
  value : Nat
  input : String
  gas : Nat
  gasPrice : Nat
  contractAddress : Option String
deriving DecidableEq, Repr

/-- A block with its transactions (`web3/types` `Block`). -/
structure Block where
  number : Int
  timestamp : Int
  transactions : List EthTransaction
deriving DecidableEq, Repr

/-- One receipt log entry. -/
structure Log where
  data : String
  topics : List String
deriving DecidableEq, Repr

/-- A transaction receipt: execution status string (`'0x1'` on success) and the
emitted event logs. -/
structure TransactionReceipt where
  status : String
  logs : List Log
deriving DecidableEq, Repr

/-- Result of `Web3Abi.decodeLog` on the erc20 `Transfer` event abi: the decoded
`_from` / `_to` fields. -/
structure DecodedTransferLog where
  logFrom : String
  logTo : String
deriving DecidableEq, Repr

/-- The erc20 abi selectors held in `Web3Event.erc20Abi`: keccak-derived method
signature strings (`encodeFunctionSignature(...).slice(2)`) computed from the
abi file named by configuration, hence parameters of the model. -/
structure Erc20Abi where
  transferMethodSignature : String
  transferFromMethodSignature : String
deriving DecidableEq, Repr

/-- External chain client primitive `getTransactionReceipt`. -/
abbrev GetReceiptFn := String → Option TransactionReceipt

/-- External web3 primitive `Web3Abi.decodeLog` on the `Transfer` event abi;
`none` embeds a decode that fails or returns a falsy object. -/
abbrev DecodeLogFn := Log → Option DecodedTransferLog

/-- A monitored wallet; the indexer reads only its `address`. -/
structure Wallet where
  address : String
deriving DecidableEq, Repr

/-- A user with wallets, as returned by `userRep.getAllByWalletAddresses`. -/
structure User where
  wallets : List Wallet
deriving DecidableEq, Repr

/-- The map `WalletsMap`: address to the wallet records owning it, insertion ordered. -/
abbrev WalletsMap := List (String × List Wallet)

/-- External wallet store primitive `userRep.getAllByWalletAddresses`. -/
abbrev GetUsersFn := List String → List User

/-- The persisted transaction store, keyed by `transactionHash`. -/
abbrev TransactionStore := List Transaction

/-- Embeds `txRep.getByHash`. -/
def getByHash (store : TransactionStore) (h : String) : Option Transaction :=
  store.find? (fun t => t.transactionHash = h)

/-- Embeds `txRep.save`: a TypeORM save is an upsert keyed by the record identity —
it replaces the stored record with the same hash, or inserts a new one. -/
def saveTransaction (store : TransactionStore) (tx : Transaction) : TransactionStore :=
  if store.any (fun t => t.transactionHash = tx.transactionHash) then
    store.map (fun t => if t.transactionHash = tx.transactionHash then tx else t)
  else
    store ++ [tx]

/-- Embeds `getTxStatusByReceipt` (lines 34-42). -/
def getTxStatusByReceipt (receipt : Option TransactionReceipt) : TxStatus :=
  match receipt with
  | none => TxStatus.pending
  | some r => if r.status = "0x1" then TxStatus.confirmed else TxStatus.failed

/-- Value of one hexadecimal digit. -/
def hexDigitVal (c : Char) : Nat :=
  if c.isDigit then c.toNat - 48
  else if 'a' ≤ c ∧ c ≤ 'f' then c.toNat - 87
  else if 'A' ≤ c ∧ c ≤ 'F' then c.toNat - 55
  else 0

/-- Numeric value of a hexadecimal string (how `decodeParameters` reads a
`uint256` word). -/
def hexToNat (s : String) : Nat :=
  s.foldl (fun a c => a * 16 + hexDigitVal c) 0

/-- The `i`-th 32-byte abi word of a call payload (64 hex characters). -/
def payloadWord (payload : String) (i : Nat) : String :=
  (payload.drop (64 * i)).take 64

/-- How `decodeParameters` reads an `address` word: the low 20 bytes. -/
def decodeAddressArg (w : String) : String :=
  "0x" ++ w.drop 24

/-- The per-transaction map of `processTransactionsInBlock` (lines 254-273):
extend a raw transaction by parsing erc20 call data.  Both branches of the
source compare the selector against `erc20Abi.transfer.methodSignature` (the
second branch nevertheless decodes with the `transferFrom` abi, whose declared
inputs are `(address,uint256,uint256)`). -/
def extendTransaction (abi : Erc20Abi) (t : EthTransaction) : ExtEthTransaction :=
  if t.input.length = 2 + 8 + 64 + 64 ∧ (t.input.drop 2).take 8 = abi.transferMethodSignature then
    let payload := t.input.drop 10
    { hash := t.hash
      txFrom := t.txFrom
      txTo := decodeAddressArg (payloadWord payload 0)
      value := hexToNat (payloadWord payload 1)
      input := t.input
      gas := t.gas
      gasPrice := t.gasPrice
      contractAddress := some t.txTo }
  else if t.input.length = 2 + 8 + 64 + 64 + 64 ∧ (t.input.drop 2).take 8 = abi.transferMethodSignature then
    let payload := t.input.drop 10
    { hash := t.hash
      txFrom := decodeAddressArg (payloadWord payload 0)
      txTo := toString (hexToNat (payloadWord payload 1))
      value := hexToNat (payloadWord payload 2)
      input := t.input
      gas := t.gas
      gasPrice := t.gasPrice
      contractAddress := some t.txTo }
  else
    { hash := t.hash
      txFrom := t.txFrom
      txTo := t.txTo
      value := t.value
      input := t.input
      gas := t.gas
      gasPrice := t.gasPrice
      contractAddress := none }

/-- Insertion-ordered key set (`Object.keys` of the `txMaps` accumulator). -/
def dedupKeys (l : List String) : List String :=
  l.foldl (fun acc a => if acc.contains a then acc else acc ++ [a]) []

/-- One step of the `walletIds` accumulation: append wallet `w` under its
address, creating the key on first use. -/
def walletsMapAdd (m : WalletsMap) (w : Wallet) : WalletsMap :=
  if (m.lookup w.address).isSome then
    m.map (fun kv => if kv.1 = w.address then (kv.1, kv.2 ++ [w]) else kv)
  else
    m ++ [(w.address, [w])]

/-- Embeds `getWalletMapInTransactions` (lines 149-168): collect the non-empty
`from`/`to` addresses of the transactions, batch-query the user store, and
group the wallets whose address occurred back by address. -/
def getWalletMapInTransactions (getAllByWalletAddresses : GetUsersFn)
    (transactions : List ExtEthTransaction) : WalletsMap :=
  let addrs := (transactions.map (·.txFrom) ++ transactions.map (·.txTo)).filter (· ≠ "")
  let txMaps := dedupKeys addrs
  let allWallets := ((getAllByWalletAddresses txMaps).map User.wallets).foldl (· ++ ·) []
  (allWallets.filter (fun w => txMaps.contains w.address)).foldl walletsMapAdd []

/-- Embeds `filterTransactionByWalletAddresses` (lines 170-173): keep the transactions
whose `from` or `to` is a key of the wallets map. -/
def filterTransactionByWalletAddresses (walletsMap : WalletsMap)
    (transactions : List ExtEthTransaction) : List ExtEthTransaction :=
  transactions.filter (fun t => (walletsMap.lookup t.txFrom).isSome || (walletsMap.lookup t.txTo).isSome)

/-- The diagnostic `details` JSON written on record creation (lines 327-330):
gas and gas price (in gwei).  Embedded as an injective rendering. -/
def txDetails (ethTx : ExtEthTransaction) : String :=
  "gas:" ++ toString ethTx.gas ++ ",gasPriceGwei:" ++ toString ethTx.gasPrice ++ "/9"

/-- Embeds `Web3Utils.fromWei`: wei to whole coins. -/
def fromWei (value : Nat) : Rat :=
  (value : Rat) / ((10 : Rat) ^ 18)

/-- Embeds `processNotRegisteredEthereumTransaction` (lines 288-294). -/
def processNotRegisteredEthereumTransaction (tx : Transaction) (ethTx : ExtEthTransaction) : Transaction :=
  { tx with
    type := some TxType.ethereumTransfer
    contractAddress := none
    txFrom := ethTx.txFrom
    txTo := ethTx.txTo
    amount := fromWei ethTx.value }

/-- Embeds `processNotRegisteredContractTransaction` (lines 296-315): returns the
updated record, or `none` when the method selector is unknown (the source
returns `false` and the caller skips the transaction).  Note that the second
branch of the source also compares against `transfer.methodSignature`, so it is
dead code; it is kept here as in the source. -/
def processNotRegisteredContractTransaction (abi : Erc20Abi) (tx : Transaction)
    (ethTx : ExtEthTransaction) : Option Transaction :=
  let methodSignature := (ethTx.input.drop 2).take 8
  if methodSignature = abi.transferMethodSignature then
    some { tx with
      txFrom := ethTx.txFrom
      txTo := ethTx.txTo
      amount := (ethTx.value : Rat)
      type := some TxType.erc20Transfer
      contractAddress := ethTx.contractAddress }
  else if methodSignature = abi.transferMethodSignature then
    some { tx with
      txFrom := ethTx.txFrom
      txTo := ethTx.txTo
      amount := (ethTx.value : Rat)
      type := some TxType.erc20Transfer
      contractAddress := ethTx.contractAddress }
  else
    none

/-- The erc20 `Transfer`-event check of lines 358-372, as a fold over the
receipt logs: the status starts at Failed and any log that decodes to a
`Transfer` event with non-empty `_from` and `_to` switches it to Confirmed. -/
def erc20LogsStatus (decodeLog : DecodeLogFn) (logs : List Log) : TxStatus :=
  logs.foldl
    (fun s log =>
      match decodeLog log with
      | some d => if d.logFrom ≠ "" ∧ d.logTo ≠ "" then TxStatus.confirmed else s
      | none => s)
    TxStatus.failed

/-- The status resolution of lines 355-373: receipt status, refined for erc20
transfers by the `Transfer`-event check. -/
def resolveStatus (decodeLog : DecodeLogFn) (txType : Option TxType)
    (receipt : TransactionReceipt) : TxStatus :=
  let status := getTxStatusByReceipt (some receipt)
  if status ≠ TxStatus.failed ∧ txType = some TxType.erc20Transfer then
    erc20LogsStatus decodeLog receipt.logs
  else
    status

/-- The record-selection phase of `processTransaction` (lines 322-344): a
missing record is created and classified (`none` embeds the skip on an unknown
contract action); an existing record is kept only while still Pending (`none`
embeds the terminal-state short circuit). -/
def classifyForProcess (abi : Erc20Abi) (ethTx : ExtEthTransaction)
    (existing : Option Transaction) : Option Transaction :=
  match existing with
  | none =>
      let tx := Transaction.createTransaction ethTx.hash (txDetails ethTx)
      if ethTx.value ≠ 0 ∧ ethTx.input = "0x" then
        some (processNotRegisteredEthereumTransaction tx ethTx)
      else
        processNotRegisteredContractTransaction abi tx ethTx
  | some tx => if tx.status ≠ TxStatus.pending then none else some tx

/-- Embeds `processTransaction` (lines 321-381).  Looks up the record by hash and runs
the record-selection phase; a missing receipt aborts before any write;
otherwise the resolved status, the block timestamp and the block number are
written and the record is saved. -/
def processTransaction (abi : Erc20Abi) (getTransactionReceipt : GetReceiptFn)
    (decodeLog : DecodeLogFn) (ethTx : ExtEthTransaction) (blockData : Block)
    (store : TransactionStore) : TransactionStore :=
  match classifyForProcess abi ethTx (getByHash store ethTx.hash) with
  | none => store
  | some tx =>
      match getTransactionReceipt ethTx.hash with
      | none => store
      | some receipt =>
          saveTransaction store
            { tx with
              status := resolveStatus decodeLog tx.type receipt
              timestamp := blockData.timestamp
              blockNumber := blockData.number }

/-- Embeds `processTransactionsInBlock` (lines 248-286): extend the block's
transactions, build the wallets map, filter the relevant transactions and
process each one against the store.  The bounded-concurrency executor is
embedded as a sequential fold. -/
def processTransactionsInBlock (abi : Erc20Abi) (getAllByWalletAddresses : GetUsersFn)
    (getTransactionReceipt : GetReceiptFn) (decodeLog : DecodeLogFn)
    (store : TransactionStore) (blockData : Option Block) : TransactionStore :=
  match blockData with
  | none => store
  | some b =>
      if b.transactions.isEmpty then store
      else
        let sourceTransactions := b.transactions.map (extendTransaction abi)
        let wallets := getWalletMapInTransactions getAllByWalletAddresses sourceTransactions
        if wallets.isEmpty then store
        else
          let transactions := filterTransactionByWalletAddresses wallets sourceTransactions
          transactions.foldl
            (fun st t => processTransaction abi getTransactionReceipt decodeLog t b st) store

/-- Cursor effect of one completed sweep of `checkTransactions`
(lines 178-227): the scanned range and the new cursor value. -/
structure SweepCursor where
  rangeStart : Int
  newLastCheckingBlock : Int
deriving DecidableEq, Repr

/-- The cursor logic of `checkTransactions`: a zero (falsy) cursor is first
reset from the largest persisted block number minus 4, floored at the
configured start block (lines 182-201); the sweep then processes the block
range from the cursor to the current head; afterwards the cursor is
unconditionally reassigned to `currentBlock - 10` (line 223). -/
def checkTransactionsCursor (lastCheckingBlock : Int) (maxPersistedBlockNumber : Option Int)
    (startBlock : Int) (currentBlock : Int) : SweepCursor :=
  let lcb₀ := if lastCheckingBlock = 0 then
      max ((maxPersistedBlockNumber.getD 0) - 4) startBlock
    else lastCheckingBlock
  let lcb₁ := if lcb₀ = 0 then currentBlock - 4 else lcb₀
  { rangeStart := lcb₁, newLastCheckingBlock := currentBlock - 10 }

/-- Whether one receipt log decodes to a `Transfer` event with non-empty
`_from` and `_to` fields (the per-log condition of line 365). -/
def isValidTransferLogDecode (decodeLog : DecodeLogFn) (log : Log) : Bool :=
  match decodeLog log with
  | some d => decide (d.logFrom ≠ "" ∧ d.logTo ≠ "")
  | none => false

/-! ### Concrete sample data, used to evaluate the model on closed inputs.  The
selector strings are stand-ins for the keccak-derived configuration values; the
development only relies on the two selectors being distinct 8-character
strings, which holds for the real keccak values as well. -/

/-- A sample abi selector configuration. -/
def sampleAbi : Erc20Abi :=
  { transferMethodSignature := "a9059cbb"
    transferFromMethodSignature := "23b872dd" }

/-- Call data for a `transferFrom`-selector call with three 32-byte words of
payload (the fixed-width `transferFrom` encoding: 2 + 8 + 192 characters). -/
def sampleTransferFromInput : String :=
  "0x" ++ "23b872dd" ++ String.mk (List.replicate 192 '0')

/-- A raw `transferFrom` contract call. -/
def sampleTransferFromTx : EthTransaction :=
  { hash := "0xtf"
    txFrom := "0xalice"
    txTo := "0xtoken"
    value := 0
    input := sampleTransferFromInput
    gas := 60000
    gasPrice := 5 }

/-- A raw contract call whose call data starts with the `transfer` selector but
whose payload length (zero words) does not match the fixed-width encoding. -/
def sampleBadLengthTransferTx : EthTransaction :=
  { hash := "0xbad"
    txFrom := "0xalice"
    txTo := "0xtoken"
    value := 5
    input := "0x" ++ "a9059cbb"
    gas := 60000
    gasPrice := 5 }

/-- A raw `transfer` contract call with the two-word fixed-width payload
(2 + 8 + 128 characters). -/
def sampleTransferTx : EthTransaction :=
  { hash := "0xt1"
    txFrom := "0xalice"
    txTo := "0xtoken"
    value := 0
    input := "0x" ++ "a9059cbb" ++ String.mk (List.replicate 128 '0')
    gas := 60000
    gasPrice := 5 }

/-- A raw native coin transfer of 1 ether (the spec's scenario input). -/
def sampleNativeTx : EthTransaction :=
  { hash := "0xA"
    txFrom := "0xW1"
    txTo := "0xW2"
    value := 1000000000000000000
    input := "0x"
    gas := 21000
    gasPrice := 5 }

/-- The spec's scenario block. -/
def sampleBlock : Block :=
  { number := 100
    timestamp := 1500000000
    transactions := [sampleNativeTx] }

/-- A receipt log entry recognised by `sampleDecodeLog`. -/
def sampleTransferLog : Log :=
  { data := "transfer-data", topics := ["transfer-topic"] }

/-- A sample log decoder: decodes `sampleTransferLog` to a `Transfer` event
with non-empty fields and fails on everything else. -/
def sampleDecodeLog : DecodeLogFn :=
  fun log => if log = sampleTransferLog then some { logFrom := "0xW1", logTo := "0xW2" } else none

/-- A successful receipt carrying one decodable `Transfer` log. -/
def sampleSuccessReceipt : TransactionReceipt :=
  { status := "0x1", logs := [sampleTransferLog] }

/-- A successful receipt with no logs. -/
def sampleEmptySuccessReceipt : TransactionReceipt :=
  { status := "0x1", logs := [] }

/-- A reverted receipt. -/
def sampleRevertReceipt : TransactionReceipt :=
  { status := "0x0", logs := [] }

/-- A persisted pending erc20 record awaiting its receipt. -/
def samplePendingErc20 : Transaction :=
  { transactionHash := "0xerc"
    status := TxStatus.pending
    type := some TxType.erc20Transfer
    txFrom := "0xW1"
    txTo := "0xW2"
    amount := 7
    contractAddress := some "0xtoken"
    blockNumber := 0
    timestamp := 0
    details := "d" }

/-- A persisted pending native-transfer record awaiting its receipt. -/
def samplePendingNative : Transaction :=
  { transactionHash := "0xA"
    status := TxStatus.pending
    type := some TxType.ethereumTransfer
    txFrom := "0xW1"
    txTo := "0xW2"
    amount := 1
    contractAddress := none
    blockNumber := 0
    timestamp := 0
    details := "d" }

/-- A persisted confirmed (terminal) record. -/
def sampleConfirmedTx : Transaction :=
  { transactionHash := "0xdone"
    status := TxStatus.confirmed
    type := some TxType.ethereumTransfer
    txFrom := "0xW1"
    txTo := "0xW2"
    amount := 2
    contractAddress := none
    blockNumber := 50
    timestamp := 1400000000
    details := "d" }

/-- An already-extended transaction matching `samplePendingErc20`. -/
def sampleErc20ExtTx : ExtEthTransaction :=
  { hash := "0xerc"
    txFrom := "0xW1"
    txTo := "0xW2"
    value := 7
    input := "0x" ++ "a9059cbb" ++ String.mk (List.replicate 128 '0')
    gas := 60000
    gasPrice := 5
    contractAddress := some "0xtoken" }

/-! ### Store lemmas -/

/-- A record found by hash carries that hash. -/
theorem getByHash_hash_eq {store : TransactionStore} {h : String} {tx : Transaction}
    (hfind : getByHash store h = some tx) : tx.transactionHash = h := by
  unfold getByHash at hfind
  simpa using List.find?_some hfind

/-- Replacing the matching record in place makes it the one found by its hash. -/
theorem find?_map_update (l : List Transaction) (tx : Transaction)
    (h : l.any (fun t => t.transactionHash = tx.transactionHash) = true) :
    (l.map (fun t => if t.transactionHash = tx.transactionHash then tx else t)).find?
      (fun t => t.transactionHash = tx.transactionHash) = some tx := by
  induction l with
  | nil => simp at h
  | cons a l ih =>
    simp only [List.map_cons]
    by_cases ha : a.transactionHash = tx.transactionHash
    · simp [ha]
    · rw [if_neg ha, List.find?_cons_of_neg _ (by simpa using ha)]
      simp only [List.any_cons, Bool.or_eq_true, decide_eq_true_eq] at h
      rcases h with h | h
      · exact absurd h ha
      · exact ih h

/-- Replacing the record for one hash does not affect lookups of other hashes. -/
theorem find?_map_update_other (l : List Transaction) (tx : Transaction) (h : String)
    (hne : h ≠ tx.transactionHash) :
    (l.map (fun t => if t.transactionHash = tx.transactionHash then tx else t)).find?
      (fun t => t.transactionHash = h) =
    l.find? (fun t => t.transactionHash = h) := by
  induction l with
  | nil => simp
  | cons a l ih =>
    simp only [List.map_cons]
    by_cases ha : a.transactionHash = tx.transactionHash
    · rw [if_pos ha, List.find?_cons_of_neg _ (by simpa using fun e => hne e.symm),
        List.find?_cons_of_neg _ (by simpa using fun e => hne (e.symm.trans ha))]
      exact ih
    · rw [if_neg ha]
      by_cases hah : a.transactionHash = h
      · rw [List.find?_cons_of_pos _ (by simpa using hah),
          List.find?_cons_of_pos _ (by simpa using hah)]
      · rw [List.find?_cons_of_neg _ (by simpa using hah),
          List.find?_cons_of_neg _ (by simpa using hah)]
        exact ih

/-- After a save, looking up the saved record's hash yields the saved record. -/
theorem getByHash_save_self (store : TransactionStore) (tx : Transaction) :
    getByHash (saveTransaction store tx) tx.transactionHash = some tx := by
  unfold getByHash saveTransaction
  by_cases hany : (store.any fun t => t.transactionHash = tx.transactionHash) = true
  · rw [if_pos hany]
    exact find?_map_update store tx hany
  · rw [if_neg hany, List.find?_append,
      List.find?_eq_none.mpr (fun x hx => by
        have := List.any_eq_false.mp (Bool.eq_false_iff.mpr hany) x hx
        simpa using this)]
    simp

/-- A save never touches records stored under a different hash. -/
theorem getByHash_save_other (store : TransactionStore) (tx : Transaction) (h : String)
    (hne : h ≠ tx.transactionHash) :
    getByHash (saveTransaction store tx) h = getByHash store h := by
  unfold getByHash saveTransaction
  by_cases hany : (store.any fun t => t.transactionHash = tx.transactionHash) = true
  · rw [if_pos hany]
    exact find?_map_update_other store tx h hne
  · rw [if_neg hany, List.find?_append]
    cases hs : store.find? (fun t => t.transactionHash = h) with
    | some a => rfl
    | none => simp [List.find?_cons_of_neg, hne, Ne.symm hne]

/-! ### Extension and classification lemmas -/

/-- Extension never changes the transaction hash. -/
theorem extendTransaction_hash (abi : Erc20Abi) (t : EthTransaction) :
    (extendTransaction abi t).hash = t.hash := by
  unfold extendTransaction
  split
  · rfl
  · split <;> rfl

/-- Extension never changes the call data. -/
theorem extendTransaction_input (abi : Erc20Abi) (t : EthTransaction) :
    (extendTransaction abi t).input = t.input := by
  unfold extendTransaction
  split
  · rfl
  · split <;> rfl

/-- The length-matching `transfer` extension branch. -/
theorem extendTransaction_transfer (abi : Erc20Abi) (t : EthTransaction)
    (hlen : t.input.length = 2 + 8 + 64 + 64)
    (hsel : (t.input.drop 2).take 8 = abi.transferMethodSignature) :
    extendTransaction abi t =
      { hash := t.hash
        txFrom := t.txFrom
        txTo := decodeAddressArg (payloadWord (t.input.drop 10) 0)
        value := hexToNat (payloadWord (t.input.drop 10) 1)
        input := t.input
        gas := t.gas
        gasPrice := t.gasPrice
        contractAddress := some t.txTo } := by
  unfold extendTransaction
  rw [if_pos ⟨hlen, hsel⟩]

/-- The three-word extension branch (the source checks the `transfer` selector
here too). -/
theorem extendTransaction_threeWords (abi : Erc20Abi) (t : EthTransaction)
    (hlen : t.input.length = 2 + 8 + 64 + 64 + 64)
    (hsel : (t.input.drop 2).take 8 = abi.transferMethodSignature) :
    extendTransaction abi t =
      { hash := t.hash
        txFrom := decodeAddressArg (payloadWord (t.input.drop 10) 0)
        txTo := toString (hexToNat (payloadWord (t.input.drop 10) 1))
        value := hexToNat (payloadWord (t.input.drop 10) 2)
        input := t.input
        gas := t.gas
        gasPrice := t.gasPrice
        contractAddress := some t.txTo } := by
  unfold extendTransaction
  rw [if_neg (by rintro ⟨e, -⟩; omega), if_pos ⟨hlen, hsel⟩]

/-- With call data matching neither erc20 shape, extension only records the
missing contract address. -/
theorem extendTransaction_other (abi : Erc20Abi) (t : EthTransaction)
    (h1 : ¬(t.input.length = 2 + 8 + 64 + 64 ∧ (t.input.drop 2).take 8 = abi.transferMethodSignature))
    (h2 : ¬(t.input.length = 2 + 8 + 64 + 64 + 64 ∧ (t.input.drop 2).take 8 = abi.transferMethodSignature)) :
    extendTransaction abi t =
      { hash := t.hash
        txFrom := t.txFrom
        txTo := t.txTo
        value := t.value
        input := t.input
        gas := t.gas
        gasPrice := t.gasPrice
        contractAddress := none } := by
  unfold extendTransaction
  rw [if_neg h1, if_neg h2]

/-- Since both selector branches of the source compare against the `transfer`
selector, the contract classification reduces to that single test. -/
theorem processNotRegisteredContractTransaction_eq (abi : Erc20Abi) (tx : Transaction)
    (ethTx : ExtEthTransaction) :
    processNotRegisteredContractTransaction abi tx ethTx =
      (if (ethTx.input.drop 2).take 8 = abi.transferMethodSignature then
        some { tx with
          txFrom := ethTx.txFrom
          txTo := ethTx.txTo
          amount := (ethTx.value : Rat)
          type := some TxType.erc20Transfer
          contractAddress := ethTx.contractAddress }
      else none) := by
  unfold processNotRegisteredContractTransaction
  by_cases h : (ethTx.input.drop 2).take 8 = abi.transferMethodSignature <;> simp [h]

/-- The `Transfer`-event fold confirms exactly when some log decodes validly. -/
theorem erc20LogsStatus_eq (decodeLog : DecodeLogFn) (logs : List Log) :
    erc20LogsStatus decodeLog logs =
      (if logs.any (isValidTransferLogDecode decodeLog) then TxStatus.confirmed
       else TxStatus.failed) := by
  unfold erc20LogsStatus
  suffices h : ∀ s : TxStatus,
      logs.foldl (fun s log => match decodeLog log with
        | some d => if d.logFrom ≠ "" ∧ d.logTo ≠ "" then TxStatus.confirmed else s
        | none => s) s =
      (if logs.any (isValidTransferLogDecode decodeLog) then TxStatus.confirmed else s) from
    h TxStatus.failed
  induction logs with
  | nil => intro s; simp
  | cons l ls ih =>
    intro s
    simp only [List.foldl_cons, List.any_cons]
    cases hd : decodeLog l with
    | none =>
      have h1 : isValidTransferLogDecode decodeLog l = false := by
        simp [isValidTransferLogDecode, hd]
      simp [hd, h1, ih s]
    | some d =>
      by_cases hv : d.logFrom ≠ "" ∧ d.logTo ≠ ""
      · have h1 : isValidTransferLogDecode decodeLog l = true := by
          simp only [isValidTransferLogDecode, hd]
          exact decide_eq_true hv
        simp [hd, hv, h1, ih TxStatus.confirmed]
      · have h1 : isValidTransferLogDecode decodeLog l = false := by
          simp only [isValidTransferLogDecode, hd]
          simpa using hv
        simp [hd, hv, h1, ih s]

/-- The resolved status is never Pending once a receipt exists. -/
theorem resolveStatus_ne_pending (decodeLog : DecodeLogFn) (ty : Option TxType)
    (receipt : TransactionReceipt) :
    resolveStatus decodeLog ty receipt ≠ TxStatus.pending := by
  simp only [resolveStatus]
  split
  · rw [erc20LogsStatus_eq]
    split <;> simp
  · simp only [getTxStatusByReceipt]
    split <;> simp

/-- A non-erc20 record takes the raw receipt status. -/
theorem resolveStatus_native (decodeLog : DecodeLogFn) (receipt : TransactionReceipt) :
    resolveStatus decodeLog (some TxType.ethereumTransfer) receipt =
      getTxStatusByReceipt (some receipt) := by
  unfold resolveStatus
  rw [if_neg]
  rintro ⟨-, h⟩
  simp at h

/-- A reverted receipt resolves to Failed for every record type. -/
theorem resolveStatus_revert (decodeLog : DecodeLogFn) (ty : Option TxType)
    (receipt : TransactionReceipt) (h : receipt.status ≠ "0x1") :
    resolveStatus decodeLog ty receipt = TxStatus.failed := by
  unfold resolveStatus getTxStatusByReceipt
  simp [h]

/-- A successful receipt on an erc20 record resolves through the log check. -/
theorem resolveStatus_erc20_success (decodeLog : DecodeLogFn)
    (receipt : TransactionReceipt) (h : receipt.status = "0x1") :
    resolveStatus decodeLog (some TxType.erc20Transfer) receipt =
      (if receipt.logs.any (isValidTransferLogDecode decodeLog) then TxStatus.confirmed
       else TxStatus.failed) := by
  unfold resolveStatus
  rw [if_pos ⟨by unfold getTxStatusByReceipt; simp [h], rfl⟩, erc20LogsStatus_eq]

/-! ### Path lemmas for `processTransaction` -/

/-- Terminal existing records are not selected. -/
theorem classifyForProcess_terminal (abi : Erc20Abi) (ethTx : ExtEthTransaction)
    (tx : Transaction) (h : tx.status ≠ TxStatus.pending) :
    classifyForProcess abi ethTx (some tx) = none := by
  unfold classifyForProcess
  simp [h]

/-- Pending existing records are selected unchanged. -/
theorem classifyForProcess_pending (abi : Erc20Abi) (ethTx : ExtEthTransaction)
    (tx : Transaction) (h : tx.status = TxStatus.pending) :
    classifyForProcess abi ethTx (some tx) = some tx := by
  unfold classifyForProcess
  simp [h]

/-- A fresh transaction with a plain value and no call data is classified as an
ethereum transfer. -/
theorem classifyForProcess_fresh_native (abi : Erc20Abi) (ethTx : ExtEthTransaction)
    (hv : ethTx.value ≠ 0) (hi : ethTx.input = "0x") :
    classifyForProcess abi ethTx none =
      some (processNotRegisteredEthereumTransaction
        (Transaction.createTransaction ethTx.hash (txDetails ethTx)) ethTx) := by
  unfold classifyForProcess
  rw [if_pos ⟨hv, hi⟩]

/-- A fresh transaction with call data goes through the contract classifier. -/
theorem classifyForProcess_fresh_contract (abi : Erc20Abi) (ethTx : ExtEthTransaction)
    (hni : ¬(ethTx.value ≠ 0 ∧ ethTx.input = "0x")) :
    classifyForProcess abi ethTx none =
      processNotRegisteredContractTransaction abi
        (Transaction.createTransaction ethTx.hash (txDetails ethTx)) ethTx := by
  unfold classifyForProcess
  rw [if_neg hni]

/-- Every record selected for processing carries the processed hash. -/
theorem classifyForProcess_hash (abi : Erc20Abi) (ethTx : ExtEthTransaction)
    (existing : Option Transaction) (tx' : Transaction)
    (hex : ∀ tx, existing = some tx → tx.transactionHash = ethTx.hash)
    (h : classifyForProcess abi ethTx existing = some tx') :
    tx'.transactionHash = ethTx.hash := by
  cases existing with
  | none =>
    by_cases hni : ethTx.value ≠ 0 ∧ ethTx.input = "0x"
    · rw [classifyForProcess_fresh_native abi ethTx hni.1 hni.2] at h
      have h2 := Option.some.inj h
      subst h2
      rfl
    · rw [classifyForProcess_fresh_contract abi ethTx hni,
        processNotRegisteredContractTransaction_eq] at h
      by_cases hsel : (ethTx.input.drop 2).take 8 = abi.transferMethodSignature
      · rw [if_pos hsel] at h
        have h2 := Option.some.inj h
        subst h2
        rfl
      · rw [if_neg hsel] at h
        exact absurd h (by simp)
  | some tx =>
    by_cases hst : tx.status = TxStatus.pending
    · rw [classifyForProcess_pending abi ethTx tx hst] at h
      have h2 := Option.some.inj h
      subst h2
      exact hex tx rfl
    · rw [classifyForProcess_terminal abi ethTx tx hst] at h
      exact absurd h (by simp)

/-- Nothing is selected: the store is untouched. -/
theorem processTransaction_skip (abi : Erc20Abi) (getReceipt : GetReceiptFn)
    (decodeLog : DecodeLogFn) (ethTx : ExtEthTransaction) (blockData : Block)
    (store : TransactionStore)
    (hc : classifyForProcess abi ethTx (getByHash store ethTx.hash) = none) :
    processTransaction abi getReceipt decodeLog ethTx blockData store = store := by
  unfold processTransaction
  rw [hc]

/-- A missing receipt aborts `processTransaction` with no write. -/
theorem processTransaction_no_receipt (abi : Erc20Abi) (getReceipt : GetReceiptFn)
    (decodeLog : DecodeLogFn) (ethTx : ExtEthTransaction) (blockData : Block)
    (store : TransactionStore)
    (hrec : getReceipt ethTx.hash = none) :
    processTransaction abi getReceipt decodeLog ethTx blockData store = store := by
  unfold processTransaction
  cases hc : classifyForProcess abi ethTx (getByHash store ethTx.hash) with
  | none => rfl
  | some tx => rw [hrec]

/-- The selected record is written back with the resolved status and the block
coordinates. -/
theorem processTransaction_write (abi : Erc20Abi) (getReceipt : GetReceiptFn)
    (decodeLog : DecodeLogFn) (ethTx : ExtEthTransaction) (blockData : Block)
    (store : TransactionStore) (tx' : Transaction) (receipt : TransactionReceipt)
    (hc : classifyForProcess abi ethTx (getByHash store ethTx.hash) = some tx')
    (hrec : getReceipt ethTx.hash = some receipt) :
    processTransaction abi getReceipt decodeLog ethTx blockData store =
      saveTransaction store
        { tx' with
          status := resolveStatus decodeLog tx'.type receipt
          timestamp := blockData.timestamp
          blockNumber := blockData.number } := by
  unfold processTransaction
  rw [hc, hrec]

/-- After a write the processed hash holds exactly the written record. -/
theorem processTransaction_written_lookup (abi : Erc20Abi) (getReceipt : GetReceiptFn)
    (decodeLog : DecodeLogFn) (ethTx : ExtEthTransaction) (blockData : Block)
    (store : TransactionStore) (tx' : Transaction) (receipt : TransactionReceipt)
    (hc : classifyForProcess abi ethTx (getByHash store ethTx.hash) = some tx')
    (hrec : getReceipt ethTx.hash = some receipt) :
    getByHash (processTransaction abi getReceipt decodeLog ethTx blockData store) ethTx.hash =
      some { tx' with
        status := resolveStatus decodeLog tx'.type receipt
        timestamp := blockData.timestamp
        blockNumber := blockData.number } := by
  rw [processTransaction_write abi getReceipt decodeLog ethTx blockData store tx' receipt hc hrec]
  have hhash : tx'.transactionHash = ethTx.hash :=
    classifyForProcess_hash abi ethTx _ tx' (fun tx htx => getByHash_hash_eq htx) hc
  simpa [hhash] using getByHash_save_self store
    { tx' with
      status := resolveStatus decodeLog tx'.type receipt
      timestamp := blockData.timestamp
      blockNumber := blockData.number }

/-- Processing one transaction never touches records stored under other
hashes. -/
theorem processTransaction_other_hash (abi : Erc20Abi) (getReceipt : GetReceiptFn)
    (decodeLog : DecodeLogFn) (ethTx : ExtEthTransaction) (blockData : Block)
    (store : TransactionStore) (h : String) (hne : h ≠ ethTx.hash) :
    getByHash (processTransaction abi getReceipt decodeLog ethTx blockData store) h =
      getByHash store h := by
  unfold processTransaction
  cases hc : classifyForProcess abi ethTx (getByHash store ethTx.hash) with
  | none => rfl
  | some tx' =>
    cases hr : getReceipt ethTx.hash with
    | none => rfl
    | some receipt =>
      have hhash : tx'.transactionHash = ethTx.hash :=
        classifyForProcess_hash abi ethTx _ tx' (fun tx htx => getByHash_hash_eq htx) hc
      apply getByHash_save_other
      simpa [hhash] using hne

/-- A receipt-derived status is never Pending. -/
theorem getTxStatusByReceipt_some_ne_pending (receipt : TransactionReceipt) :
    getTxStatusByReceipt (some receipt) ≠ TxStatus.pending := by
  simp only [getTxStatusByReceipt]
  split <;> simp

/-- Processing a fresh native transfer with a receipt writes the fully
classified record. -/
theorem processTransaction_fresh_native_lookup (abi : Erc20Abi)
    (getReceipt : GetReceiptFn) (decodeLog : DecodeLogFn) (ethTx : ExtEthTransaction)
    (blockData : Block) (store : TransactionStore) (receipt : TransactionReceipt)
    (hfresh : getByHash store ethTx.hash = none)
    (hv : ethTx.value ≠ 0) (hi : ethTx.input = "0x")
    (hrec : getReceipt ethTx.hash = some receipt) :
    getByHash (processTransaction abi getReceipt decodeLog ethTx blockData store) ethTx.hash =
      some { transactionHash := ethTx.hash
             status := getTxStatusByReceipt (some receipt)
             type := some TxType.ethereumTransfer
             txFrom := ethTx.txFrom
             txTo := ethTx.txTo
             amount := fromWei ethTx.value
             contractAddress := none
             blockNumber := blockData.number
             timestamp := blockData.timestamp
             details := txDetails ethTx } := by
  have hc : classifyForProcess abi ethTx (getByHash store ethTx.hash) =
      some (processNotRegisteredEthereumTransaction
        (Transaction.createTransaction ethTx.hash (txDetails ethTx)) ethTx) := by
    rw [hfresh]
    exact classifyForProcess_fresh_native abi ethTx hv hi
  rw [processTransaction_written_lookup abi getReceipt decodeLog ethTx blockData store _ receipt hc hrec,
    show (processNotRegisteredEthereumTransaction
        (Transaction.createTransaction ethTx.hash (txDetails ethTx)) ethTx).type =
      some TxType.ethereumTransfer from rfl,
    resolveStatus_native]
  rfl

/-- Processing a fresh transfer-selector contract call with a receipt writes
the fully classified erc20 record. -/
theorem processTransaction_fresh_contract_lookup (abi : Erc20Abi)
    (getReceipt : GetReceiptFn) (decodeLog : DecodeLogFn) (ethTx : ExtEthTransaction)
    (blockData : Block) (store : TransactionStore) (receipt : TransactionReceipt)
    (hfresh : getByHash store ethTx.hash = none)
    (hni : ¬(ethTx.value ≠ 0 ∧ ethTx.input = "0x"))
    (hsel : (ethTx.input.drop 2).take 8 = abi.transferMethodSignature)
    (hrec : getReceipt ethTx.hash = some receipt) :
    getByHash (processTransaction abi getReceipt decodeLog ethTx blockData store) ethTx.hash =
      some { transactionHash := ethTx.hash
             status := resolveStatus decodeLog (some TxType.erc20Transfer) receipt
             type := some TxType.erc20Transfer
             txFrom := ethTx.txFrom
             txTo := ethTx.txTo
             amount := (ethTx.value : Rat)
             contractAddress := ethTx.contractAddress
             blockNumber := blockData.number
             timestamp := blockData.timestamp
             details := txDetails ethTx } := by
  have hc : classifyForProcess abi ethTx (getByHash store ethTx.hash) =
      some { Transaction.createTransaction ethTx.hash (txDetails ethTx) with
        txFrom := ethTx.txFrom
        txTo := ethTx.txTo
        amount := (ethTx.value : Rat)
        type := some TxType.erc20Transfer
        contractAddress := ethTx.contractAddress } := by
    rw [hfresh, classifyForProcess_fresh_contract abi ethTx hni,
      processNotRegisteredContractTransaction_eq, if_pos hsel]
  rw [processTransaction_written_lookup abi getReceipt decodeLog ethTx blockData store _ receipt hc hrec]
  rfl

/-! ### Claim theorems -/

/-- C2: a persisted record whose status is Confirmed or Failed is terminal —
processing its hash again leaves the whole store (hence blockNumber, status
and amount) unchanged and creates no second record; only a record still
Pending passes the guard and is re-examined. -/
theorem terminal_record_never_reprocessed (abi : Erc20Abi) (getReceipt : GetReceiptFn)
    (decodeLog : DecodeLogFn) (ethTx : ExtEthTransaction) (blockData : Block)
    (store : TransactionStore) (tx : Transaction)
    (hget : getByHash store ethTx.hash = some tx)
    (hterm : tx.status = TxStatus.confirmed ∨ tx.status = TxStatus.failed) :
    processTransaction abi getReceipt decodeLog ethTx blockData store = store := by
  apply processTransaction_skip
  rw [hget]
  apply classifyForProcess_terminal
  rcases hterm with h | h <;> simp [h]

/-- Witness for C2: re-processing a concrete confirmed record is a no-op. -/
theorem terminal_record_never_reprocessed_witness :
    getByHash [sampleConfirmedTx] "0xdone" = some sampleConfirmedTx ∧
    processTransaction sampleAbi (fun _ => some sampleSuccessReceipt) sampleDecodeLog
      { hash := "0xdone", txFrom := "0xW1", txTo := "0xW2", value := 2, input := "0x",
        gas := 21000, gasPrice := 5, contractAddress := none }
      sampleBlock [sampleConfirmedTx] = [sampleConfirmedTx] :=
  ⟨by decide,
   terminal_record_never_reprocessed sampleAbi _ _ _ sampleBlock [sampleConfirmedTx]
     sampleConfirmedTx (by decide) (Or.inl (by decide))⟩

/-- C3: for a pending erc20 record with a successful receipt, the final status
is Failed when no receipt log decodes to a `Transfer` event with non-empty
from/to, and Confirmed as soon as at least one log decodes validly. -/
theorem erc20_confirmation_requires_transfer_log (abi : Erc20Abi)
    (getReceipt : GetReceiptFn) (decodeLog : DecodeLogFn) (ethTx : ExtEthTransaction)
    (blockData : Block) (store : TransactionStore) (tx : Transaction)
    (receipt : TransactionReceipt)
    (hget : getByHash store ethTx.hash = some tx)
    (hpend : tx.status = TxStatus.pending)
    (htype : tx.type = some TxType.erc20Transfer)
    (hrec : getReceipt ethTx.hash = some receipt)
    (hsucc : receipt.status = "0x1") :
    (receipt.logs.any (isValidTransferLogDecode decodeLog) = false →
      getByHash (processTransaction abi getReceipt decodeLog ethTx blockData store) ethTx.hash =
        some { tx with status := TxStatus.failed, timestamp := blockData.timestamp,
                       blockNumber := blockData.number }) ∧
    (receipt.logs.any (isValidTransferLogDecode decodeLog) = true →
      getByHash (processTransaction abi getReceipt decodeLog ethTx blockData store) ethTx.hash =
        some { tx with status := TxStatus.confirmed, timestamp := blockData.timestamp,
                       blockNumber := blockData.number }) := by
  have hc : classifyForProcess abi ethTx (getByHash store ethTx.hash) = some tx := by
    rw [hget]
    exact classifyForProcess_pending abi ethTx tx hpend
  have hw := processTransaction_written_lookup abi getReceipt decodeLog ethTx blockData store
    tx receipt hc hrec
  rw [htype, resolveStatus_erc20_success decodeLog receipt hsucc] at hw
  constructor
  · intro hnone
    rw [hnone] at hw
    simpa [htype] using hw
  · intro hsome
    rw [hsome] at hw
    simpa [htype] using hw

/-- Witness for C3: with one decodable `Transfer` log the concrete pending
erc20 record is confirmed. -/
theorem erc20_confirmation_requires_transfer_log_witness :
    sampleSuccessReceipt.logs.any (isValidTransferLogDecode sampleDecodeLog) = true ∧
    getByHash (processTransaction sampleAbi (fun _ => some sampleSuccessReceipt) sampleDecodeLog
        sampleErc20ExtTx sampleBlock [samplePendingErc20]) "0xerc" =
      some { samplePendingErc20 with
        status := TxStatus.confirmed, timestamp := 1500000000, blockNumber := 100 } :=
  ⟨by decide,
   (erc20_confirmation_requires_transfer_log sampleAbi _ sampleDecodeLog sampleErc20ExtTx
      sampleBlock [samplePendingErc20] samplePendingErc20 sampleSuccessReceipt
      (by decide) (by decide) (by decide) rfl (by decide)).2 (by decide)⟩

/-- C10: reconciling an existing Pending record against an available receipt
updates only its status, timestamp and blockNumber; type, from, to, amount,
contractAddress and details stay exactly as first persisted. -/
theorem pending_reconciliation_frame (abi : Erc20Abi) (getReceipt : GetReceiptFn)
    (decodeLog : DecodeLogFn) (ethTx : ExtEthTransaction) (blockData : Block)
    (store : TransactionStore) (tx : Transaction) (receipt : TransactionReceipt)
    (hget : getByHash store ethTx.hash = some tx)
    (hpend : tx.status = TxStatus.pending)
    (hrec : getReceipt ethTx.hash = some receipt) :
    getByHash (processTransaction abi getReceipt decodeLog ethTx blockData store) ethTx.hash =
      some { tx with status := resolveStatus decodeLog tx.type receipt,
                     timestamp := blockData.timestamp, blockNumber := blockData.number } := by
  apply processTransaction_written_lookup
  · rw [hget]
    exact classifyForProcess_pending abi ethTx tx hpend
  · exact hrec

/-- Witness for C10 at a concrete pending erc20 record. -/
theorem pending_reconciliation_frame_witness :
    getByHash (processTransaction sampleAbi (fun _ => some sampleSuccessReceipt) sampleDecodeLog
        sampleErc20ExtTx sampleBlock [samplePendingErc20]) "0xerc" =
      some { samplePendingErc20 with
        status := resolveStatus sampleDecodeLog samplePendingErc20.type sampleSuccessReceipt,
        timestamp := 1500000000, blockNumber := 100 } :=
  pending_reconciliation_frame sampleAbi _ _ sampleErc20ExtTx sampleBlock [samplePendingErc20]
    samplePendingErc20 sampleSuccessReceipt (by decide) (by decide) rfl

/-- C8: a missing receipt leaves the store untouched (the record stays
Pending); a receipt with a revert status drives the persisted status to
Failed; a successful receipt on a NativeTransfer record yields Confirmed. -/
theorem receipt_reconciliation_policy (abi : Erc20Abi) (getReceipt : GetReceiptFn)
    (decodeLog : DecodeLogFn) (ethTx : ExtEthTransaction) (blockData : Block)
    (store : TransactionStore) :
    (getReceipt ethTx.hash = none →
      processTransaction abi getReceipt decodeLog ethTx blockData store = store) ∧
    (∀ tx receipt, getByHash store ethTx.hash = some tx → tx.status = TxStatus.pending →
      getReceipt ethTx.hash = some receipt →
      (receipt.status ≠ "0x1" →
        (getByHash (processTransaction abi getReceipt decodeLog ethTx blockData store)
            ethTx.hash).map Transaction.status = some TxStatus.failed) ∧
      (receipt.status = "0x1" → tx.type = some TxType.ethereumTransfer →
        (getByHash (processTransaction abi getReceipt decodeLog ethTx blockData store)
            ethTx.hash).map Transaction.status = some TxStatus.confirmed)) := by
  refine ⟨fun hrec => processTransaction_no_receipt abi getReceipt decodeLog ethTx blockData store hrec,
    fun tx receipt hget hpend hrec => ?_⟩
  have hc : classifyForProcess abi ethTx (getByHash store ethTx.hash) = some tx := by
    rw [hget]
    exact classifyForProcess_pending abi ethTx tx hpend
  have hw := processTransaction_written_lookup abi getReceipt decodeLog ethTx blockData store
    tx receipt hc hrec
  constructor
  · intro hrev
    rw [hw, resolveStatus_revert decodeLog tx.type receipt hrev]
    rfl
  · intro hsucc hnative
    rw [hw, hnative, resolveStatus_native decodeLog receipt]
    simp [getTxStatusByReceipt, hsucc]

/-- Witness for C8: the three receipt situations at concrete records. -/
theorem receipt_reconciliation_policy_witness :
    (processTransaction sampleAbi (fun _ => none) sampleDecodeLog sampleErc20ExtTx sampleBlock
        [samplePendingErc20] = [samplePendingErc20]) ∧
    ((getByHash (processTransaction sampleAbi (fun _ => some sampleRevertReceipt) sampleDecodeLog
        sampleErc20ExtTx sampleBlock [samplePendingErc20]) "0xerc").map Transaction.status =
      some TxStatus.failed) ∧
    ((getByHash (processTransaction sampleAbi (fun _ => some sampleEmptySuccessReceipt)
        sampleDecodeLog
        { hash := "0xA", txFrom := "0xW1", txTo := "0xW2", value := 1000000000000000000,
          input := "0x", gas := 21000, gasPrice := 5, contractAddress := none }
        sampleBlock [samplePendingNative]) "0xA").map Transaction.status =
      some TxStatus.confirmed) :=
  ⟨(receipt_reconciliation_policy sampleAbi (fun _ => none) sampleDecodeLog sampleErc20ExtTx
      sampleBlock [samplePendingErc20]).1 rfl,
   ((receipt_reconciliation_policy sampleAbi (fun _ => some sampleRevertReceipt) sampleDecodeLog
      sampleErc20ExtTx sampleBlock [samplePendingErc20]).2 samplePendingErc20 sampleRevertReceipt
      (by decide) (by decide) rfl).1 (by decide),
   ((receipt_reconciliation_policy sampleAbi (fun _ => some sampleEmptySuccessReceipt)
      sampleDecodeLog
      { hash := "0xA", txFrom := "0xW1", txTo := "0xW2", value := 1000000000000000000,
        input := "0x", gas := 21000, gasPrice := 5, contractAddress := none }
      sampleBlock [samplePendingNative]).2 samplePendingNative sampleEmptySuccessReceipt
      (by decide) (by decide) rfl).2 rfl (by decide)⟩

/-- C7: a raw transaction with empty call data and non-zero value is classified
NativeTransfer, with from and to taken directly from the transaction and the
amount equal to its value converted from wei to whole coins; in particular a
value of 1000000000000000000 wei is recorded as the whole-coin amount 1. -/
theorem native_transfer_classification (abi : Erc20Abi) (getReceipt : GetReceiptFn)
    (decodeLog : DecodeLogFn) (t : EthTransaction) (blockData : Block)
    (store : TransactionStore) (receipt : TransactionReceipt)
    (hv : t.value ≠ 0) (hi : t.input = "0x")
    (hfresh : getByHash store t.hash = none)
    (hrec : getReceipt t.hash = some receipt) :
    (∃ tx', getByHash (processTransaction abi getReceipt decodeLog (extendTransaction abi t)
        blockData store) t.hash = some tx' ∧
      tx'.type = some TxType.ethereumTransfer ∧ tx'.txFrom = t.txFrom ∧
      tx'.txTo = t.txTo ∧ tx'.amount = fromWei t.value) ∧
    fromWei 1000000000000000000 = 1 := by
  have h1 : ¬(t.input.length = 2 + 8 + 64 + 64 ∧
      (t.input.drop 2).take 8 = abi.transferMethodSignature) := by
    rintro ⟨e, -⟩
    rw [hi] at e
    exact absurd e (by decide)
  have h2 : ¬(t.input.length = 2 + 8 + 64 + 64 + 64 ∧
      (t.input.drop 2).take 8 = abi.transferMethodSignature) := by
    rintro ⟨e, -⟩
    rw [hi] at e
    exact absurd e (by decide)
  have hext := extendTransaction_other abi t h1 h2
  have hw := processTransaction_fresh_native_lookup abi getReceipt decodeLog
    (extendTransaction abi t) blockData store receipt
    (by rw [extendTransaction_hash]; exact hfresh)
    (by rw [hext]; exact hv)
    (by rw [extendTransaction_input]; exact hi)
    (by rw [extendTransaction_hash]; exact hrec)
  rw [extendTransaction_hash] at hw
  refine ⟨?_, by norm_num [fromWei]⟩
  rw [hext]
  rw [hext] at hw
  exact ⟨_, hw, rfl, rfl, rfl, rfl⟩

/-- Witness for C7 at the spec's scenario transaction (1 ether, block 100). -/
theorem native_transfer_classification_witness :
    sampleNativeTx.value ≠ 0 ∧
    ((∃ tx', getByHash (processTransaction sampleAbi (fun _ => some sampleEmptySuccessReceipt)
        sampleDecodeLog (extendTransaction sampleAbi sampleNativeTx) sampleBlock [])
          "0xA" = some tx' ∧
      tx'.type = some TxType.ethereumTransfer ∧ tx'.txFrom = "0xW1" ∧
      tx'.txTo = "0xW2" ∧ tx'.amount = fromWei 1000000000000000000) ∧
    fromWei 1000000000000000000 = 1) :=
  ⟨by decide,
   native_transfer_classification sampleAbi (fun _ => some sampleEmptySuccessReceipt)
     sampleDecodeLog sampleNativeTx sampleBlock [] sampleEmptySuccessReceipt
     (by decide) rfl rfl rfl⟩

/-- C5 counterexample: the first observation of a fresh, relevant native
transfer whose receipt is not yet available persists nothing at all — in
particular no Pending record is created, contradicting the claim. -/
theorem first_observation_without_receipt_persists_nothing :
    processTransaction sampleAbi (fun _ => none) sampleDecodeLog
      (extendTransaction sampleAbi sampleNativeTx) sampleBlock [] = [] :=
  processTransaction_no_receipt sampleAbi (fun _ => none) sampleDecodeLog
    (extendTransaction sampleAbi sampleNativeTx) sampleBlock [] rfl

/-- C5 amended: the first observation of a relevant transaction with a known
classification persists a record only when its receipt is already available,
and then directly with a receipt-derived status (never Pending); when the
receipt is absent nothing is persisted and the transaction is re-examined from
scratch on later sweeps. -/
theorem first_observation_persisted_only_with_receipt (abi : Erc20Abi)
    (getReceipt : GetReceiptFn) (decodeLog : DecodeLogFn) (ethTx : ExtEthTransaction)
    (blockData : Block) (store : TransactionStore)
    (hfresh : getByHash store ethTx.hash = none)
    (hknown : (ethTx.value ≠ 0 ∧ ethTx.input = "0x") ∨
      (ethTx.input.drop 2).take 8 = abi.transferMethodSignature) :
    (getReceipt ethTx.hash = none →
      processTransaction abi getReceipt decodeLog ethTx blockData store = store) ∧
    (∀ receipt, getReceipt ethTx.hash = some receipt →
      ∃ tx', getByHash (processTransaction abi getReceipt decodeLog ethTx blockData store)
          ethTx.hash = some tx' ∧ tx'.status ≠ TxStatus.pending) := by
  refine ⟨fun hrec => processTransaction_no_receipt abi getReceipt decodeLog ethTx blockData
    store hrec, fun receipt hrec => ?_⟩
  by_cases hni : ethTx.value ≠ 0 ∧ ethTx.input = "0x"
  · exact ⟨_, processTransaction_fresh_native_lookup abi getReceipt decodeLog ethTx blockData
      store receipt hfresh hni.1 hni.2 hrec,
      getTxStatusByReceipt_some_ne_pending receipt⟩
  · rcases hknown with hn | hsel
    · exact absurd hn hni
    · exact ⟨_, processTransaction_fresh_contract_lookup abi getReceipt decodeLog ethTx
        blockData store receipt hfresh hni hsel hrec,
        resolveStatus_ne_pending decodeLog (some TxType.erc20Transfer) receipt⟩

/-- Witness for C5's amended statement, at the scenario transaction with and
without a receipt. -/
theorem first_observation_persisted_only_with_receipt_witness :
    (processTransaction sampleAbi (fun _ => none) sampleDecodeLog
      (extendTransaction sampleAbi sampleNativeTx) sampleBlock [] = []) ∧
    (∃ tx', getByHash (processTransaction sampleAbi (fun _ => some sampleEmptySuccessReceipt)
        sampleDecodeLog (extendTransaction sampleAbi sampleNativeTx) sampleBlock [])
          (extendTransaction sampleAbi sampleNativeTx).hash = some tx' ∧
      tx'.status ≠ TxStatus.pending) :=
  ⟨(first_observation_persisted_only_with_receipt sampleAbi (fun _ => none) sampleDecodeLog
      (extendTransaction sampleAbi sampleNativeTx) sampleBlock [] rfl
      (Or.inl (by decide))).1 rfl,
   (first_observation_persisted_only_with_receipt sampleAbi
      (fun _ => some sampleEmptySuccessReceipt) sampleDecodeLog
      (extendTransaction sampleAbi sampleNativeTx) sampleBlock [] rfl
      (Or.inl (by decide))).2 sampleEmptySuccessReceipt rfl⟩

/-- C4 counterexample: a first completed sweep observes head 100 (cursor
becomes 90); a second sweep observes the smaller head 50 and the cursor moves
backwards to 40, contradicting that it never decreases. -/
theorem lastCheckingBlock_regresses :
    (checkTransactionsCursor
        (checkTransactionsCursor 0 none 0 100).newLastCheckingBlock none 0 50).newLastCheckingBlock <
      (checkTransactionsCursor 0 none 0 100).newLastCheckingBlock := by decide

/-- C4 amended: after every completed sweep `lastCheckingBlock` equals the
observed chain head minus the reorg margin 10, irrespective of its previous
value — so it regresses whenever a subsequent sweep observes a smaller head;
the processed range of the sweep still starts at the previous non-zero
cursor. -/
theorem lastCheckingBlock_after_sweep (lastCheckingBlock : Int)
    (maxPersistedBlockNumber : Option Int) (startBlock currentBlock : Int)
    (hnz : lastCheckingBlock ≠ 0) :
    (checkTransactionsCursor lastCheckingBlock maxPersistedBlockNumber startBlock
        currentBlock).rangeStart = lastCheckingBlock ∧
    (checkTransactionsCursor lastCheckingBlock maxPersistedBlockNumber startBlock
        currentBlock).newLastCheckingBlock = currentBlock - 10 := by
  simp [checkTransactionsCursor, hnz]

/-- Witness for C4's amended statement: a sweep from cursor 90 that observes
head 50 scans from 90 and resets the cursor to 40. -/
theorem lastCheckingBlock_after_sweep_witness :
    (90 : Int) ≠ 0 ∧
    ((checkTransactionsCursor 90 none 0 50).rangeStart = 90 ∧
     (checkTransactionsCursor 90 none 0 50).newLastCheckingBlock = 40) :=
  ⟨by decide, lastCheckingBlock_after_sweep 90 none 0 50 (by decide)⟩

/-- C6 counterexample: a transfer-selector call whose payload length matches
neither fixed-width erc20 encoding is not classified Unknown and dropped —
with a receipt available it is persisted as an Erc20Transfer record. -/
theorem wrong_length_transfer_selector_still_persisted :
    (getByHash (processTransaction sampleAbi (fun _ => some sampleEmptySuccessReceipt)
        sampleDecodeLog (extendTransaction sampleAbi sampleBadLengthTransferTx)
        sampleBlock []) "0xbad").map Transaction.type =
      some (some TxType.erc20Transfer) := by decide

/-- C6 amended: a fresh transaction whose call data carries the `transfer`
selector is classified and persisted (receipt available) as Erc20Transfer
regardless of payload length; when the payload length matches the fixed-width
`transfer` encoding, recipient and amount are decoded from the payload and
contractAddress equals the transaction's original `to` field; when the length
matches neither erc20 encoding the raw fields are kept and contractAddress is
absent. -/
theorem transfer_selector_classification (abi : Erc20Abi) (getReceipt : GetReceiptFn)
    (decodeLog : DecodeLogFn) (t : EthTransaction) (blockData : Block)
    (store : TransactionStore) (receipt : TransactionReceipt)
    (hsiglen : abi.transferMethodSignature.length = 8)
    (hsel : (t.input.drop 2).take 8 = abi.transferMethodSignature)
    (hfresh : getByHash store t.hash = none)
    (hrec : getReceipt t.hash = some receipt) :
    ∃ tx', getByHash (processTransaction abi getReceipt decodeLog (extendTransaction abi t)
        blockData store) t.hash = some tx' ∧
      tx'.type = some TxType.erc20Transfer ∧
      (t.input.length = 2 + 8 + 64 + 64 →
        tx'.txTo = decodeAddressArg (payloadWord (t.input.drop 10) 0) ∧
        tx'.amount = (hexToNat (payloadWord (t.input.drop 10) 1) : Rat) ∧
        tx'.txFrom = t.txFrom ∧ tx'.contractAddress = some t.txTo) ∧
      (t.input.length ≠ 2 + 8 + 64 + 64 → t.input.length ≠ 2 + 8 + 64 + 64 + 64 →
        tx'.contractAddress = none ∧ tx'.amount = (t.value : Rat) ∧
        tx'.txFrom = t.txFrom ∧ tx'.txTo = t.txTo) := by
  have hinput : t.input ≠ "0x" := by
    intro e
    rw [e, show (("0x").drop 2).take 8 = "" from rfl] at hsel
    rw [← hsel] at hsiglen
    exact absurd hsiglen (by decide)
  have hni : ¬((extendTransaction abi t).value ≠ 0 ∧ (extendTransaction abi t).input = "0x") := by
    rintro ⟨-, e⟩
    rw [extendTransaction_input] at e
    exact hinput e
  have hw := processTransaction_fresh_contract_lookup abi getReceipt decodeLog
    (extendTransaction abi t) blockData store receipt
    (by rw [extendTransaction_hash]; exact hfresh)
    hni
    (by rw [extendTransaction_input]; exact hsel)
    (by rw [extendTransaction_hash]; exact hrec)
  rw [extendTransaction_hash] at hw
  refine ⟨_, hw, rfl, ?_, ?_⟩
  · intro hlen
    rw [extendTransaction_transfer abi t hlen hsel]
    exact ⟨rfl, rfl, rfl, rfl⟩
  · intro hl1 hl2
    rw [extendTransaction_other abi t (fun he => hl1 he.1) (fun he => hl2 he.1)]
    exact ⟨rfl, rfl, rfl, rfl⟩

set_option maxRecDepth 100000 in
/-- Witness for C6's amended statement at a concrete length-matching
`transfer` call. -/
theorem transfer_selector_classification_witness :
    sampleAbi.transferMethodSignature.length = 8 ∧
    (sampleTransferTx.input.drop 2).take 8 = sampleAbi.transferMethodSignature ∧
    (∃ tx', getByHash (processTransaction sampleAbi (fun _ => some sampleEmptySuccessReceipt)
        sampleDecodeLog (extendTransaction sampleAbi sampleTransferTx) sampleBlock [])
          "0xt1" = some tx' ∧
      tx'.type = some TxType.erc20Transfer ∧
      (sampleTransferTx.input.length = 2 + 8 + 64 + 64 →
        tx'.txTo = decodeAddressArg (payloadWord (sampleTransferTx.input.drop 10) 0) ∧
        tx'.amount = (hexToNat (payloadWord (sampleTransferTx.input.drop 10) 1) : Rat) ∧
        tx'.txFrom = "0xalice" ∧ tx'.contractAddress = some "0xtoken") ∧
      (sampleTransferTx.input.length ≠ 2 + 8 + 64 + 64 →
        sampleTransferTx.input.length ≠ 2 + 8 + 64 + 64 + 64 →
        tx'.contractAddress = none ∧ tx'.amount = ((0 : Nat) : Rat) ∧
        tx'.txFrom = "0xalice" ∧ tx'.txTo = "0xtoken")) :=
  ⟨by decide, by decide,
   transfer_selector_classification sampleAbi (fun _ => some sampleEmptySuccessReceipt)
     sampleDecodeLog sampleTransferTx sampleBlock [] sampleEmptySuccessReceipt
     (by decide) (by decide) rfl rfl⟩

/-- C1 (code bug): a raw `transferFrom` call — transferFrom selector with the
three-word fixed-width payload — is never decoded as Erc20Transfer: both
selector branches of the source compare against the `transfer` selector, so
the transaction is classified unknown and dropped without creating a record,
while the decoding branch guarded by this comparison uses the `transferFrom`
abi. -/
theorem transferFrom_call_is_dropped (abi : Erc20Abi) (getReceipt : GetReceiptFn)
    (decodeLog : DecodeLogFn) (t : EthTransaction) (blockData : Block)
    (store : TransactionStore)
    (hlen : t.input.length = 2 + 8 + 64 + 64 + 64)
    (hsel : (t.input.drop 2).take 8 = abi.transferFromMethodSignature)
    (hne : abi.transferFromMethodSignature ≠ abi.transferMethodSignature)
    (hfresh : getByHash store t.hash = none) :
    (extendTransaction abi t).contractAddress = none ∧
    processTransaction abi getReceipt decodeLog (extendTransaction abi t) blockData store =
      store := by
  have hsel' : (t.input.drop 2).take 8 ≠ abi.transferMethodSignature := by
    rw [hsel]
    exact hne
  have h1 : ¬(t.input.length = 2 + 8 + 64 + 64 ∧
      (t.input.drop 2).take 8 = abi.transferMethodSignature) := by
    rintro ⟨e, -⟩
    omega
  have h2 : ¬(t.input.length = 2 + 8 + 64 + 64 + 64 ∧
      (t.input.drop 2).take 8 = abi.transferMethodSignature) := by
    rintro ⟨-, e⟩
    exact hsel' e
  constructor
  · rw [extendTransaction_other abi t h1 h2]
  · apply processTransaction_skip
    have hni : ¬((extendTransaction abi t).value ≠ 0 ∧
        (extendTransaction abi t).input = "0x") := by
      rintro ⟨-, e⟩
      rw [extendTransaction_input] at e
      rw [e] at hlen
      exact absurd hlen (by decide)
    rw [extendTransaction_hash, hfresh, classifyForProcess_fresh_contract abi _ hni,
      processNotRegisteredContractTransaction_eq,
      if_neg (by rw [extendTransaction_input]; exact hsel')]

set_option maxRecDepth 100000 in
/-- Witness for C1's theorem at a concrete transferFrom call. -/
theorem transferFrom_call_is_dropped_witness :
    (extendTransaction sampleAbi sampleTransferFromTx).contractAddress = none ∧
    processTransaction sampleAbi (fun _ => some sampleSuccessReceipt) sampleDecodeLog
      (extendTransaction sampleAbi sampleTransferFromTx) sampleBlock [] = [] :=
  transferFrom_call_is_dropped sampleAbi (fun _ => some sampleSuccessReceipt) sampleDecodeLog
    sampleTransferFromTx sampleBlock [] (by decide) (by decide) (by decide) rfl

/-- Folding `processTransaction` over transactions whose hashes all differ from
`h` preserves the record stored under `h`. -/
theorem foldl_processTransaction_other (abi : Erc20Abi) (getReceipt : GetReceiptFn)
    (decodeLog : DecodeLogFn) (blockData : Block) (l : List ExtEthTransaction)
    (store : TransactionStore) (h : String)
    (hl : ∀ te ∈ l, te.hash ≠ h) :
    getByHash (l.foldl (fun st te => processTransaction abi getReceipt decodeLog te blockData st)
      store) h = getByHash store h := by
  induction l generalizing store with
  | nil => rfl
  | cons a l ih =>
    rw [List.foldl_cons, ih _ (fun te hte => hl te (List.mem_cons_of_mem a hte)),
      processTransaction_other_hash abi getReceipt decodeLog a blockData store h
        (fun e => hl a (List.mem_cons_self a l) e.symm)]

/-- C9: a transaction of a processed block whose extended from and to addresses
are both absent from the wallet address index never creates or alters a
persisted record under its hash — only transactions whose from or to is a key
of the index are handed on to `processTransaction`. -/
theorem unmonitored_transaction_never_persisted (abi : Erc20Abi)
    (getAllByWalletAddresses : GetUsersFn) (getReceipt : GetReceiptFn)
    (decodeLog : DecodeLogFn) (store : TransactionStore) (b : Block) (h : String)
    (habs : ∀ te ∈ b.transactions.map (extendTransaction abi), te.hash = h →
      (getWalletMapInTransactions getAllByWalletAddresses
        (b.transactions.map (extendTransaction abi))).lookup te.txFrom = none ∧
      (getWalletMapInTransactions getAllByWalletAddresses
        (b.transactions.map (extendTransaction abi))).lookup te.txTo = none) :
    getByHash (processTransactionsInBlock abi getAllByWalletAddresses getReceipt decodeLog
      store (some b)) h = getByHash store h := by
  simp only [processTransactionsInBlock]
  by_cases hempty : b.transactions.isEmpty
  · rw [if_pos hempty]
  · rw [if_neg hempty]
    by_cases hwm : (getWalletMapInTransactions getAllByWalletAddresses
        (b.transactions.map (extendTransaction abi))).isEmpty
    · rw [if_pos hwm]
    · rw [if_neg hwm]
      apply foldl_processTransaction_other
      intro te hte he
      simp only [filterTransactionByWalletAddresses] at hte
      rcases List.mem_filter.mp hte with ⟨hmem, hp⟩
      rcases habs te hmem he with ⟨hf, ht⟩
      rw [hf, ht] at hp
      simp at hp

/-- Witness for C9: with no monitored wallets the scenario block leaves the
store untouched. -/
theorem unmonitored_transaction_never_persisted_witness :
    getByHash (processTransactionsInBlock sampleAbi (fun _ => [])
      (fun _ => some sampleSuccessReceipt) sampleDecodeLog [] (some sampleBlock)) "0xA" =
      getByHash [] "0xA" :=
  unmonitored_transaction_never_persisted sampleAbi (fun _ => [])
    (fun _ => some sampleSuccessReceipt) sampleDecodeLog [] sampleBlock "0xA" (by decide)

end TokenWallets
